import Mathlib

/-!
Verification development for the git-helper plugin.

The definitions below are a shallow embedding of the TypeScript sources:
  * `src/services/git.ts`       (`GitService`)
  * `src/services/vscode.ts`    (`VSCodeService`, provided unnamed)
  * `src/services/cursor.ts`    (`CursorService`)
  * `src/utils/workspace-cache.ts` (`WorkspaceCache`)
  * `src/index.ts`              (the plugin's `executeAction`)

External capabilities (filesystem existence, the VCS command primitive,
the IDE storage files) are modelled as explicit parameters/fields, so
every definition is an executable Lean function of the environment.
-/

/-! ## PathCodec: `cleanWorkspacePath` (git.ts lines 39-51, workspace-cache.ts lines 28-42)

The source strips a leading `file://` (the regex is anchored, so at most one
occurrence is removed), then applies JavaScript's `decodeURIComponent`,
swallowing a `URIError` and keeping the stripped string in that case.

`decodeURIComponent` is embedded as a fuel-indexed recursion over the
character list: a `%` must be followed by two hex digits giving a byte; a
lead byte `>= 0x80` must start a well-formed, shortest-form UTF-8 sequence
whose continuation bytes are themselves percent-escapes; any violation is a
`URIError` (here: `none`). Every step consumes at least one character, so
fuel equal to the input length never runs out. -/

def hexVal (c : Char) : Option Nat :=
  if '0' ≤ c ∧ c ≤ '9' then some (c.toNat - 48)
  else if 'a' ≤ c ∧ c ≤ 'f' then some (c.toNat - 87)
  else if 'A' ≤ c ∧ c ≤ 'F' then some (c.toNat - 55)
  else none

/-- Consume one `%XY` escape, returning the byte value and the rest. -/
def readEscape : List Char → Option (Nat × List Char)
  | '%' :: h :: l :: rest =>
    match hexVal h, hexVal l with
    | some a, some b => some (16 * a + b, rest)
    | _, _ => none
  | _ => none

/-- Consume `n` percent-escaped UTF-8 continuation bytes, accumulating the
code point. -/
def readConts : Nat → Nat → List Char → Option (Nat × List Char)
  | 0, acc, rest => some (acc, rest)
  | n + 1, acc, rest =>
    match readEscape rest with
    | some (b, rest') =>
      if 0x80 ≤ b ∧ b < 0xC0 then readConts n (acc * 64 + b % 64) rest' else none
    | none => none

/-- Total byte length of the UTF-8 sequence started by lead byte `b`
(`none` for continuation bytes and invalid leads). -/
def utf8Len (b : Nat) : Option Nat :=
  if b < 0xC2 then none
  else if b < 0xE0 then some 2
  else if b < 0xF0 then some 3
  else if b < 0xF5 then some 4
  else none

/-- Shortest-form and scalar-value checks for a decoded code point of an
`n`-byte sequence, as enforced by `decodeURIComponent`. -/
def scalarOk (n cp : Nat) : Bool :=
  match n with
  | 2 => decide (0x80 ≤ cp)
  | 3 => decide (0x800 ≤ cp ∧ ¬(0xD800 ≤ cp ∧ cp ≤ 0xDFFF))
  | 4 => decide (0x10000 ≤ cp ∧ cp ≤ 0x10FFFF)
  | _ => false

def decodeCore : Nat → List Char → Option (List Char)
  | _, [] => some []
  | 0, _ :: _ => none
  | fuel + 1, c :: cs =>
    if c = '%' then
      match readEscape (c :: cs) with
      | none => none
      | some (b, rest) =>
        if b < 0x80 then
          match decodeCore fuel rest with
          | some ds => some (Char.ofNat b :: ds)
          | none => none
        else
          match utf8Len b with
          | none => none
          | some n =>
            match readConts (n - 1) (b % 2 ^ (7 - n)) rest with
            | none => none
            | some (cp, rest') =>
              if scalarOk n cp then
                match decodeCore fuel rest' with
                | some ds => some (Char.ofNat cp :: ds)
                | none => none
              else none
    else
      match decodeCore fuel cs with
      | some ds => some (c :: ds)
      | none => none

/-- Model of `decodeURIComponent`: `none` models a thrown `URIError`. -/
def decodeURIComponentStr (s : String) : Option String :=
  (decodeCore s.data.length s.data).map fun l => ⟨l⟩

/-- Whether the string starts with the literal `file://`. -/
def hasFileScheme (s : String) : Bool :=
  match s.data with
  | 'f' :: 'i' :: 'l' :: 'e' :: ':' :: '/' :: '/' :: _ => true
  | _ => false

/-- The anchored `replace(/^file:\x2f\x2f/, '')` of the source: remove one
leading `file://` if present. -/
def stripFileScheme (s : String) : String :=
  match s.data with
  | 'f' :: 'i' :: 'l' :: 'e' :: ':' :: '/' :: '/' :: rest => ⟨rest⟩
  | _ => s

/-- Embedding of `GitService.cleanWorkspacePath` / `WorkspaceCache.cleanWorkspacePath`
on a non-null string: strip the scheme, then percent-decode, keeping the
stripped string when decoding throws. -/
def cleanWorkspacePath (s : String) : String :=
  let stripped := stripFileScheme s
  match decodeURIComponentStr stripped with
  | some d => d
  | none => stripped

theorem decodeCore_no_percent :
    ∀ (l : List Char) (fuel : Nat), l.length ≤ fuel → '%' ∉ l →
      decodeCore fuel l = some l := by
  intro l
  induction l with
  | nil => intro fuel _ _; cases fuel <;> rfl
  | cons c cs ih =>
    intro fuel hlen hmem
    cases fuel with
    | zero => simp at hlen
    | succ f =>
      have hc : ¬(c = '%') := fun h => hmem (h ▸ List.mem_cons_self c cs)
      have hcs : '%' ∉ cs := fun h => hmem (List.mem_cons_of_mem c h)
      have hlen' : cs.length ≤ f := Nat.le_of_succ_le_succ (by simpa using hlen)
      simp only [decodeCore, if_neg hc, ih f hlen' hcs]

theorem decode_no_percent (s : String) (h : '%' ∉ s.data) :
    decodeURIComponentStr s = some s := by
  simp only [decodeURIComponentStr, decodeCore_no_percent s.data s.data.length le_rfl h,
    Option.map_some']

theorem stripFileScheme_of_not (t : String) (h : hasFileScheme t = false) :
    stripFileScheme t = t := by
  unfold stripFileScheme
  split
  · rename_i rest heq
    exfalso
    have ht : hasFileScheme t = true := by
      unfold hasFileScheme
      rw [heq]
      rfl
    rw [ht] at h
    exact Bool.noConfusion h
  · rfl

/-- C3 (amended): normalization is idempotent on every string whose
normalized form neither starts with `file://` nor contains a percent
sign. -/
theorem cleanWorkspacePath_idem (s : String)
    (h1 : hasFileScheme (cleanWorkspacePath s) = false)
    (h2 : '%' ∉ (cleanWorkspacePath s).data) :
    cleanWorkspacePath (cleanWorkspacePath s) = cleanWorkspacePath s := by
  generalize ht : cleanWorkspacePath s = t at h1 h2
  rw [show cleanWorkspacePath t =
      (match decodeURIComponentStr (stripFileScheme t) with
        | some d => d
        | none => stripFileScheme t) from rfl]
  rw [stripFileScheme_of_not t h1, decode_no_percent t h2]

/-- Witness for C3's amended theorem at a concrete already-normal path. -/
theorem cleanWorkspacePath_idem_witness :
    cleanWorkspacePath (cleanWorkspacePath "/tmp/ws a") = cleanWorkspacePath "/tmp/ws a" :=
  cleanWorkspacePath_idem "/tmp/ws a" (by decide) (by decide)

/-- C3 counterexample: stripping reveals a second `file://` prefix, so a
second normalization changes the string again — normalization is not
idempotent on every string. -/
theorem cleanWorkspacePath_not_idem :
    cleanWorkspacePath (cleanWorkspacePath "file://file://x") ≠
      cleanWorkspacePath "file://file://x" := by decide

/-! ## GitSyncEngine: `GitService` (git.ts)

A `GitEnv` captures one service instance together with the replies of the
underlying VCS capability (`simple-git`) for the repository it is bound to:
the working-tree probe, the `status()` summary, the configured remotes, the
remote-ref verification and `rev-list --count` answers, and whether
`add` / `commit` / `push` throw (with the thrown error's message).
`status()` and `getRemotes()` are taken as non-throwing; the throwing steps
the spec discusses (stage, commit, push) carry explicit error fields. -/

structure GitEnv where
  /-- Holds `this.git ≠ null`: the constructor got a non-empty path and
  `simpleGit` did not throw. -/
  gitInit : Bool
  /-- Result of `fs.existsSync(path.join(workspacePath, '.git'))`. -/
  gitDirExists : Bool
  /-- Whether `revparse(['--is-inside-work-tree'])` succeeds. -/
  revparseWorktreeOk : Bool
  /-- Count `status().created.length`, and likewise below. -/
  created : Nat
  deleted : Nat
  modified : Nat
  renamed : Nat
  notAdded : Nat
  /-- Value of `status().current` (`null` when detached / unborn). -/
  current : Option String
  /-- names of `getRemotes(true)`, in order. -/
  remotes : List String
  /-- whether `revparse(['--verify', 'refs/remotes/' ++ rb])` succeeds. -/
  refVerifies : String → Bool
  /-- Result of `rev-list --count remoteBranch..branch`. -/
  revListCount : String → String → Nat
  /-- error message when `git.add('.')` throws. -/
  addError : Option String
  /-- error message when `git.commit(msg)` throws. -/
  commitError : Option String
  /-- error message when `git.push('origin', branch)` throws. -/
  pushError : Option String

/-- Value of `status.current || ''` (git.ts lines 94, 129, 256). -/
def branchOr (env : GitEnv) : String :=
  match env.current with
  | some b => b
  | none => ""

/-- The constructor (git.ts lines 21-33): `this.git` stays `null` when the
workspace path is empty (JS falsy) or `simpleGit` throws. -/
def mkGitInit (workspacePath : String) (simpleGitThrows : Bool) : Bool :=
  if workspacePath = "" then false else !simpleGitThrows

/-- Embedding of `GitService.isGitRepository` (git.ts lines 56-71): `.git` must exist and
the rev-parse probe must succeed; any thrown error yields `false`. -/
def isGitRepository (env : GitEnv) : Bool :=
  env.gitInit && env.gitDirExists && env.revparseWorktreeOk

/-- Sum `changedFilesCount` (git.ts lines 97-102 and 222-227). -/
def changedFilesCount (env : GitEnv) : Nat :=
  env.created + env.deleted + env.modified + env.renamed + env.notAdded

/-- Embedding of `GitService.hasUnpushedCommits` (git.ts lines 123-163). -/
def hasUnpushedCommits (env : GitEnv) : Bool :=
  if env.gitInit = false then false
  else
    let b := branchOr env
    if b = "" then false
    else
      match env.remotes with
      | [] => false
      | r :: _ =>
        let rb := r ++ "/" ++ b
        if env.refVerifies rb = false then true
        else decide (0 < env.revListCount rb b)

structure GitStatus where
  isRepo : Bool
  branch : String
  changedFilesCount : Nat
  hasChanges : Bool
  hasUnpushedCommits : Bool
deriving DecidableEq

/-- The zeroed summary (git.ts lines 77-83). -/
def defaultStatus : GitStatus :=
  { isRepo := false, branch := "", changedFilesCount := 0,
    hasChanges := false, hasUnpushedCommits := false }

/-- Embedding of `GitService.getStatus` (git.ts lines 76-118). -/
def getStatus (env : GitEnv) : GitStatus :=
  if env.gitInit = false then defaultStatus
  else if isGitRepository env = false then defaultStatus
  else
    { isRepo := true
      branch := branchOr env
      changedFilesCount := changedFilesCount env
      hasChanges := decide (0 < changedFilesCount env)
      hasUnpushedCommits := hasUnpushedCommits env }

/-- Model of `replace(/, $/, '')`: remove one trailing `", "` if present. -/
def stripTrailingCommaSpace (s : String) : String :=
  match s.data.reverse with
  | ' ' :: ',' :: rest => ⟨rest.reverse⟩
  | _ => s

/-- Embedding of `GitService.getChangesDescription` (git.ts lines 168-201): per-category
segments in the fixed source order, each ending in `", "`, with one
trailing `", "` removed at the end (`replace(/, $/, '')`). -/
def getChangesDescription (env : GitEnv) : String :=
  if env.gitInit = false then ""
  else
    let d :=
      (if 0 < env.created then "新增: " ++ toString env.created ++ "个文件, " else "") ++
      (if 0 < env.modified then "修改: " ++ toString env.modified ++ "个文件, " else "") ++
      (if 0 < env.deleted then "删除: " ++ toString env.deleted ++ "个文件, " else "") ++
      (if 0 < env.renamed then "重命名: " ++ toString env.renamed ++ "个文件, " else "") ++
      (if 0 < env.notAdded then "未跟踪: " ++ toString env.notAdded ++ "个文件, " else "")
    stripTrailingCommaSpace d

/-- The auto-generated commit message (git.ts line 238). -/
def commitMessage (env : GitEnv) : String :=
  "自动提交: " ++ getChangesDescription env ++ " [GitOK]"

/-- The repository-mutating VCS calls `commitAndPush` can issue, in order. -/
inductive Effect where
  | add : Effect
  | commit : String → Effect
  | push : String → String → Effect
deriving DecidableEq

def Effect.isCommit : Effect → Bool
  | .commit _ => true
  | _ => false

structure SyncResult where
  success : Bool
  message : String
deriving DecidableEq

/-- The catch-all failure message (git.ts line 277):
`提交并推送失败: ${error.message || '未知错误'}`. -/
def failMsg (e : String) : String :=
  "提交并推送失败: " ++ (if e = "" then "未知错误" else e)

/-- Embedding of `GitService.commitAndPush` (git.ts lines 206-280), returning the
`SyncResult` together with the trace of repository-mutating VCS calls that
actually succeeded (an operation that throws contributes no effect, and the
top-level catch stops everything after it). -/
def commitAndPush (env : GitEnv) : SyncResult × List Effect :=
  if env.gitInit = false then (⟨false, "Git服务未初始化"⟩, [])
  else if isGitRepository env = false then (⟨false, "当前目录不是Git仓库"⟩, [])
  else if changedFilesCount env = 0 then (⟨false, "没有需要提交的更改"⟩, [])
  else
    let msg := commitMessage env
    match env.addError with
    | some e => (⟨false, failMsg e⟩, [])
    | none =>
      match env.commitError with
      | some e => (⟨false, failMsg e⟩, [.add])
      | none =>
        if env.remotes = [] then
          (⟨true, "已成功提交更改，但未找到远程仓库，无法推送"⟩, [.add, .commit msg])
        else if branchOr env = "" then
          (⟨true, "已成功提交更改，但未能获取当前分支，无法推送"⟩, [.add, .commit msg])
        else
          match env.pushError with
          | some e => (⟨false, failMsg e⟩, [.add, .commit msg])
          | none =>
            (⟨true, "已成功提交并推送更改: " ++ msg⟩,
              [.add, .commit msg, .push "origin" (branchOr env)])

/-- A shared concrete service environment: an initialized service on a
clean repository on branch `main`, no remotes, a cooperating VCS. -/
def baseGitEnv : GitEnv :=
  { gitInit := true, gitDirExists := true, revparseWorktreeOk := true
    created := 0, deleted := 0, modified := 0, renamed := 0, notAdded := 0
    current := some "main", remotes := []
    refVerifies := fun _ => true, revListCount := fun _ _ => 0
    addError := none, commitError := none, pushError := none }

/-- C1: on an initialized service, `hasUnpushedCommits` is `false` without
a current branch or without a remote; otherwise, for the first configured
remote, it is `true` when the remote-tracking ref does not verify, and when
it verifies it is `true` iff the `rev-list --count` of commits in the local
branch but not the tracking ref is positive. -/
theorem hasUnpushedCommits_spec (env : GitEnv) (hg : env.gitInit = true) :
    ((branchOr env = "" ∨ env.remotes = []) → hasUnpushedCommits env = false) ∧
    (∀ r rs, env.remotes = r :: rs → branchOr env ≠ "" →
      ((env.refVerifies (r ++ "/" ++ branchOr env) = false →
          hasUnpushedCommits env = true) ∧
       (env.refVerifies (r ++ "/" ++ branchOr env) = true →
          (hasUnpushedCommits env = true ↔
            0 < env.revListCount (r ++ "/" ++ branchOr env) (branchOr env))))) := by
  constructor
  · rintro (hb | hr)
    · simp [hasUnpushedCommits, hg, hb]
    · simp [hasUnpushedCommits, hg, hr]
  · intro r rs hr hb
    constructor
    · intro hv
      simp [hasUnpushedCommits, hg, hb, hr, hv]
    · intro hv
      simp [hasUnpushedCommits, hg, hb, hr, hv]

def envC1 : GitEnv := { baseGitEnv with remotes := ["origin"], refVerifies := fun _ => false }

/-- Witness for C1: a never-pushed branch (tracking ref absent) counts as
having unpushed commits. -/
theorem hasUnpushedCommits_spec_witness : hasUnpushedCommits envC1 = true :=
  ((hasUnpushedCommits_spec envC1 rfl).2 "origin" [] rfl (by decide)).1 rfl

/-- C2 (amended): whenever `commitAndPush` issues a push, the target remote
is the literal name `origin` and the ref is the current branch. -/
theorem commitAndPush_push_target (env : GitEnv) (r b : String)
    (h : Effect.push r b ∈ (commitAndPush env).2) :
    r = "origin" ∧ b = branchOr env := by
  unfold commitAndPush at h
  repeat' split at h
  all_goals simp_all

def envC2 : GitEnv := { baseGitEnv with created := 1, remotes := ["upstream"] }

/-- C2 counterexample: with a single configured remote named `upstream`,
the push nevertheless targets `origin` — the push does not target the first
configured remote. -/
theorem commitAndPush_push_not_first_remote :
    Effect.push "origin" "main" ∈ (commitAndPush envC2).2 ∧
    envC2.remotes = ["upstream"] ∧ ("origin" : String) ≠ "upstream" := by
  refine ⟨?_, rfl, by decide⟩
  show Effect.push "origin" "main" ∈
    [Effect.add, Effect.commit (commitMessage envC2), Effect.push "origin" "main"]
  simp

/-- Witness for C2's amended theorem at the concrete environment. -/
theorem commitAndPush_push_target_witness :
    ("origin" : String) = "origin" ∧ ("main" : String) = branchOr envC2 :=
  commitAndPush_push_target envC2 "origin" "main" (by
    show Effect.push "origin" "main" ∈
      [Effect.add, Effect.commit (commitMessage envC2), Effect.push "origin" "main"]
    simp)

/-- C5: on a repository with zero changed files, `commitAndPush` fails with
the fixed nothing-to-commit message and issues no staging, commit, or push
call at all. -/
theorem commitAndPush_noChanges (env : GitEnv)
    (hrepo : isGitRepository env = true) (hch : changedFilesCount env = 0) :
    commitAndPush env = (⟨false, "没有需要提交的更改"⟩, []) := by
  have hg : env.gitInit = true := by
    unfold isGitRepository at hrepo
    exact (Bool.and_eq_true _ _).mp ((Bool.and_eq_true _ _).mp hrepo).1 |>.1
  simp [commitAndPush, hg, hrepo, hch]

/-- Witness for C5 on the clean base repository. -/
theorem commitAndPush_noChanges_witness :
    commitAndPush baseGitEnv = (⟨false, "没有需要提交的更改"⟩, []) :=
  commitAndPush_noChanges baseGitEnv rfl rfl

/-- C6: with changes but no configured remote, `commitAndPush` succeeds
with the fixed committed-but-not-pushed message, the trace stages once and
commits exactly once, and the commit message embeds the changes description
between the fixed automated-commit prefix and the `[GitOK]` marker. -/
theorem commitAndPush_noRemote (env : GitEnv)
    (hrepo : isGitRepository env = true) (hch : changedFilesCount env ≠ 0)
    (hrem : env.remotes = []) (hadd : env.addError = none)
    (hcommit : env.commitError = none) :
    commitAndPush env = (⟨true, "已成功提交更改，但未找到远程仓库，无法推送"⟩,
      [.add, .commit (commitMessage env)]) ∧
    ((commitAndPush env).2.countP Effect.isCommit) = 1 ∧
    commitMessage env = "自动提交: " ++ getChangesDescription env ++ " [GitOK]" := by
  have hg : env.gitInit = true := by
    unfold isGitRepository at hrepo
    exact (Bool.and_eq_true _ _).mp ((Bool.and_eq_true _ _).mp hrepo).1 |>.1
  have htrace : commitAndPush env =
      (⟨true, "已成功提交更改，但未找到远程仓库，无法推送"⟩,
        [.add, .commit (commitMessage env)]) := by
    simp [commitAndPush, hg, hrepo, hch, hrem, hadd, hcommit]
  refine ⟨htrace, ?_, rfl⟩
  rw [htrace]
  simp [List.countP_cons, Effect.isCommit]

def envC6 : GitEnv := { baseGitEnv with created := 2, modified := 1 }

/-- Witness for C6 at a concrete repository with three changed files. -/
theorem commitAndPush_noRemote_witness :
    commitAndPush envC6 = (⟨true, "已成功提交更改，但未找到远程仓库，无法推送"⟩,
      [.add, .commit (commitMessage envC6)]) ∧
    ((commitAndPush envC6).2.countP Effect.isCommit) = 1 ∧
    commitMessage envC6 = "自动提交: " ++ getChangesDescription envC6 ++ " [GitOK]" :=
  commitAndPush_noRemote envC6 rfl (by decide) rfl rfl rfl

/-- C7: once staging succeeded, a throwing commit aborts everything after
it, and a throwing push (after a successful commit) reports failure with
the underlying error text while the commit effect stays in the trace — the
commit is not rolled back and no further VCS call is issued. -/
theorem commitAndPush_failfast (env : GitEnv)
    (hrepo : isGitRepository env = true) (hch : changedFilesCount env ≠ 0)
    (hadd : env.addError = none) :
    (∀ e, env.commitError = some e →
      commitAndPush env = (⟨false, failMsg e⟩, [.add])) ∧
    (env.commitError = none → env.remotes ≠ [] → branchOr env ≠ "" →
      ∀ e, env.pushError = some e →
        commitAndPush env = (⟨false, failMsg e⟩, [.add, .commit (commitMessage env)])) := by
  have hg : env.gitInit = true := by
    unfold isGitRepository at hrepo
    exact (Bool.and_eq_true _ _).mp ((Bool.and_eq_true _ _).mp hrepo).1 |>.1
  constructor
  · intro e he
    simp [commitAndPush, hg, hrepo, hch, hadd, he]
  · intro hcommit hrem hb e he
    simp [commitAndPush, hg, hrepo, hch, hadd, hcommit, hrem, hb, he]

def envC7 : GitEnv :=
  { baseGitEnv with created := 1, remotes := ["origin"], pushError := some "network down" }

/-- Witness for C7: a failing push after a successful commit. -/
theorem commitAndPush_failfast_witness :
    commitAndPush envC7 = (⟨false, failMsg "network down"⟩,
      [.add, .commit (commitMessage envC7)]) :=
  (commitAndPush_failfast envC7 rfl (by decide) rfl).2 rfl (by decide) (by decide)
    "network down" rfl

/-- C10: a service whose underlying handle is `null` — empty workspace path
or a throwing `simpleGit` constructor — answers every query with the safe
default: not a repository, the zeroed summary, the empty description, and a
failed `SyncResult` with the fixed not-initialized message (and no VCS
call). -/
theorem gitService_uninitialized :
    (∀ t, mkGitInit "" t = false) ∧ (∀ ws, mkGitInit ws true = false) ∧
    (∀ env : GitEnv, env.gitInit = false →
      isGitRepository env = false ∧ getStatus env = defaultStatus ∧
      getChangesDescription env = "" ∧
      commitAndPush env = (⟨false, "Git服务未初始化"⟩, [])) := by
  refine ⟨fun t => rfl, fun ws => by simp [mkGitInit], fun env hg => ?_⟩
  refine ⟨?_, ?_, ?_, ?_⟩
  · simp [isGitRepository, hg]
  · simp [getStatus, hg]
  · simp [getChangesDescription, hg]
  · simp [commitAndPush, hg]

def envC10 : GitEnv := { baseGitEnv with gitInit := false }

/-- Witness for C10 at a concrete uninitialized service. -/
theorem gitService_uninitialized_witness :
    mkGitInit "" false = false ∧ isGitRepository envC10 = false ∧
    getStatus envC10 = defaultStatus ∧ getChangesDescription envC10 = "" ∧
    commitAndPush envC10 = (⟨false, "Git服务未初始化"⟩, []) :=
  ⟨gitService_uninitialized.1 false,
    (gitService_uninitialized.2.2 envC10 rfl).1,
    (gitService_uninitialized.2.2 envC10 rfl).2.1,
    (gitService_uninitialized.2.2 envC10 rfl).2.2.1,
    (gitService_uninitialized.2.2 envC10 rfl).2.2.2⟩

/-! ## WorkspaceLocator: `VSCodeService.findStoragePath` and
`CursorService.findStoragePath`

The candidate lists are exactly the `possiblePaths` arrays of the sources
(vscode.ts lines 46-101, cursor.ts lines 35-72), parameterized by the
platform, the home directory, and the optional `APPDATA` value; the loop
returning the first existing file is `firstExisting`. `path.join` is taken
as separator concatenation. -/

inductive Platform where
  | darwin | win32 | linux | other
deriving DecidableEq

def joinPath (a b : String) : String := a ++ "/" ++ b

def vscodePossiblePaths (p : Platform) (home : String) (appData : Option String) :
    List String :=
  match p with
  | .darwin =>
    [joinPath home "Library/Application Support/Code/storage.json",
     joinPath home "Library/Application Support/Code/User/globalStorage/state.vscdb",
     joinPath home "Library/Application Support/Code/User/globalStorage/storage.json",
     joinPath home "Library/Application Support/Code - Insiders/storage.json",
     joinPath home "Library/Application Support/Code - Insiders/User/globalStorage/state.vscdb",
     joinPath home "Library/Application Support/Code - Insiders/User/globalStorage/storage.json"]
  | .win32 =>
    match appData with
    | some ad =>
      [joinPath ad "Code/storage.json",
       joinPath ad "Code/User/globalStorage/state.vscdb",
       joinPath ad "Code/User/globalStorage/storage.json"]
    | none => []
  | .linux =>
    [joinPath home ".config/Code/storage.json",
     joinPath home ".config/Code/User/globalStorage/state.vscdb",
     joinPath home ".config/Code/User/globalStorage/storage.json"]
  | .other => []

def cursorPossiblePaths (p : Platform) (home : String) (appData : Option String) :
    List String :=
  match p with
  | .darwin =>
    [joinPath home "Library/Application Support/Cursor/storage.json",
     joinPath home "Library/Application Support/Cursor/User/globalStorage/storage.json"]
  | .win32 =>
    match appData with
    | some ad =>
      [joinPath ad "Cursor/storage.json",
       joinPath ad "Cursor/User/globalStorage/storage.json"]
    | none => []
  | .linux =>
    [joinPath home ".config/Cursor/storage.json",
     joinPath home ".config/Cursor/User/globalStorage/storage.json"]
  | .other => []

/-- The `for (const filePath of possiblePaths) if (fs.existsSync(filePath))
return filePath` loop; `ex` is `fs.existsSync`. -/
def firstExisting (ex : String → Bool) : List String → Option String
  | [] => none
  | p :: ps => if ex p then some p else firstExisting ex ps

def vscodeFindStoragePath (p : Platform) (home : String) (appData : Option String)
    (ex : String → Bool) : Option String :=
  firstExisting ex (vscodePossiblePaths p home appData)

def cursorFindStoragePath (p : Platform) (home : String) (appData : Option String)
    (ex : String → Bool) : Option String :=
  firstExisting ex (cursorPossiblePaths p home appData)

theorem firstExisting_eq_find (ex : String → Bool) (l : List String) :
    firstExisting ex l = l.find? ex := by
  induction l with
  | nil => rfl
  | cons p ps ih =>
    by_cases h : ex p = true
    · simp [firstExisting, h, List.find?_cons_of_pos _ h]
    · simp only [firstExisting, if_neg h, List.find?_cons_of_neg _ h, ih]

/-- C4 (amended): both locators return the first candidate in the fixed
enumeration order for which the file exists (`List.find?` over the
candidate list — a single file is picked, none are merged or compared), and
on macOS the enumeration lists the three stable-build candidates before the
three Insiders-build candidates. -/
theorem findStoragePath_first_existing (p : Platform) (home : String)
    (appData : Option String) (ex : String → Bool) :
    vscodeFindStoragePath p home appData ex =
      (vscodePossiblePaths p home appData).find? ex ∧
    cursorFindStoragePath p home appData ex =
      (cursorPossiblePaths p home appData).find? ex ∧
    vscodePossiblePaths .darwin home appData =
      [joinPath home "Library/Application Support/Code/storage.json",
       joinPath home "Library/Application Support/Code/User/globalStorage/state.vscdb",
       joinPath home "Library/Application Support/Code/User/globalStorage/storage.json",
       joinPath home "Library/Application Support/Code - Insiders/storage.json",
       joinPath home "Library/Application Support/Code - Insiders/User/globalStorage/state.vscdb",
       joinPath home "Library/Application Support/Code - Insiders/User/globalStorage/storage.json"] :=
  ⟨firstExisting_eq_find ex _, firstExisting_eq_find ex _, rfl⟩

/-- C4 counterexample: on macOS, when both the stable `Code/storage.json`
and the Insiders `Code - Insiders/storage.json` exist, the stable one is
returned — the enumeration does not list the Insiders build before the
stable build. -/
theorem findStoragePath_stable_before_insiders :
    vscodeFindStoragePath .darwin "/h" none
        (fun s => s == "/h/Library/Application Support/Code/storage.json" ||
          s == "/h/Library/Application Support/Code - Insiders/storage.json") =
      some "/h/Library/Application Support/Code/storage.json" ∧
    ("/h/Library/Application Support/Code - Insiders/storage.json" : String) ∈
      vscodePossiblePaths .darwin "/h" none ∧
    ("/h/Library/Application Support/Code/storage.json" : String) ≠
      "/h/Library/Application Support/Code - Insiders/storage.json" := by
  refine ⟨by decide, ?_, by decide⟩
  show _ ∈ [joinPath "/h" "Library/Application Support/Code/storage.json",
    joinPath "/h" "Library/Application Support/Code/User/globalStorage/state.vscdb",
    joinPath "/h" "Library/Application Support/Code/User/globalStorage/storage.json",
    joinPath "/h" "Library/Application Support/Code - Insiders/storage.json",
    joinPath "/h" "Library/Application Support/Code - Insiders/User/globalStorage/state.vscdb",
    joinPath "/h" "Library/Application Support/Code - Insiders/User/globalStorage/storage.json"]
  decide

/-! ## WorkspaceCache (workspace-cache.ts)

The cache file is a single JSON object mapping keys to a string or `null`;
`CacheState` models it as the file's existence flag plus that mapping
(`none` = key absent, `some none` = key present with `null`). Filesystem
existence of workspace paths (`fs.existsSync`) is the call-time parameter
`diskExists`, so save-time and read-time checks can differ. -/

structure CacheState where
  fileExists : Bool
  entries : String → Option (Option String)

def currentAppKey : String := "_current_app_"

def updateEntries (data : String → Option (Option String)) (k : String)
    (v : Option String) : String → Option (Option String) :=
  fun k' => if k' = k then some v else data k'

/-- JavaScript `x || ''` on a JSON lookup: absent, `null`, and `""` all
give `""`. -/
def jsOrEmpty (v : Option (Option String)) : String :=
  match v with
  | some (some s) => s
  | _ => ""

/-- Embedding of `WorkspaceCache.cleanWorkspacePath` including its `if (!workspace)
return null` guard (workspace-cache.ts lines 28-42). -/
def cleanWorkspaceOpt (workspace : Option String) : Option String :=
  match workspace with
  | some w => if w = "" then none else some (cleanWorkspacePath w)
  | none => none

/-- Embedding of `WorkspaceCache.saveWorkspace` (workspace-cache.ts lines 107-144):
read-modify-write of the JSON object, storing the cleaned path under
`appId`. -/
def saveWorkspace (appId : String) (workspace : Option String)
    (st : CacheState) : CacheState :=
  let data := if st.fileExists then st.entries else fun _ => none
  { fileExists := true, entries := updateEntries data appId (cleanWorkspaceOpt workspace) }

/-- Embedding of `WorkspaceCache.saveCurrentApp` (workspace-cache.ts lines 48-79). -/
def saveCurrentApp (appId : String) (st : CacheState) : CacheState :=
  let data := if st.fileExists then st.entries else fun _ => none
  { fileExists := true, entries := updateEntries data currentAppKey (some appId) }

/-- Embedding of `WorkspaceCache.getCurrentApp` (workspace-cache.ts lines 85-100). -/
def getCurrentApp (st : CacheState) : String :=
  if st.fileExists = false then "" else jsOrEmpty (st.entries currentAppKey)

/-- Embedding of `WorkspaceCache.getWorkspace` (workspace-cache.ts lines 151-182):
fall back to the current-app pointer for a missing/empty `appId`, map an
absent / `null` / empty entry to `null`, and discard a stored path that no
longer exists on disk. -/
def getWorkspace (appId : Option String) (st : CacheState)
    (diskExists : String → Bool) : Option String :=
  if st.fileExists = false then none
  else
    let actual :=
      match appId with
      | some a => if a = "" then jsOrEmpty (st.entries currentAppKey) else a
      | none => jsOrEmpty (st.entries currentAppKey)
    if actual = "" then none
    else
      let w : Option String :=
        match st.entries actual with
        | some (some s) => if s = "" then none else some s
        | _ => none
      match w with
      | some s => if diskExists s then some s else none
      | none => none

/-- C8 (amended): saving then reading back yields the *normalized* path
`cleanWorkspacePath p` when that normalized path exists on disk at read
time, and absent when it does not; it equals `p` exactly when `p` is
already in normalized form. -/
theorem saveWorkspace_getWorkspace (appId p : String) (st : CacheState)
    (dex : String → Bool) (hApp : appId ≠ "") (hp : p ≠ "")
    (hcp : cleanWorkspacePath p ≠ "") :
    getWorkspace (some appId) (saveWorkspace appId (some p) st) dex =
      if dex (cleanWorkspacePath p) then some (cleanWorkspacePath p) else none := by
  simp [getWorkspace, saveWorkspace, updateEntries, cleanWorkspaceOpt, hApp, hp, hcp]

def cacheEmpty : CacheState := { fileExists := false, entries := fun _ => none }

def dexC8 : String → Bool := fun s => s == "/tmp/x"

/-- Witness for C8's amended theorem: an already-normalized path rounds
trips to itself while it exists on disk. -/
theorem saveWorkspace_getWorkspace_witness :
    getWorkspace (some "app") (saveWorkspace "app" (some "/tmp/x") cacheEmpty) dexC8 =
      if dexC8 (cleanWorkspacePath "/tmp/x") then some (cleanWorkspacePath "/tmp/x")
      else none :=
  saveWorkspace_getWorkspace "app" "/tmp/x" cacheEmpty dexC8 (by decide) (by decide)
    (by decide)

def dexC8raw : String → Bool := fun s => s == "a%20b"

/-- C8 counterexample: the cache stores the cleaned path, so for
`p = "a%20b"` — which does exist on disk — the round trip returns absent
(the stored `"a b"` fails the existence check), not `p`. -/
theorem saveWorkspace_getWorkspace_not_p :
    getWorkspace (some "app") (saveWorkspace "app" (some "a%20b") cacheEmpty) dexC8raw
      = none ∧ dexC8raw "a%20b" = true := by
  constructor
  · rfl
  · rfl

/-! ## ActionCoordinator: `plugin.executeAction` (index.ts lines 124-158)

Only the workspace-resolution part of `executeAction` recurses; once a
workspace is resolved the body is a loop-free `switch`, modelled by the
terminal outcome `proceed`. The self-call `return this.executeAction(action)`
after re-resolution + re-caching is embedded with explicit fuel:
`executeActionGo env fuel st = none` means the recursion is still running
after `fuel` iterations, so `∀ fuel, … = none` is non-termination. -/

/-- Model of `currentApp.toLowerCase()`. -/
def toLowerStr (s : String) : String := ⟨s.data.map Char.toLower⟩

/-- JavaScript `hay.includes(needle)`: substring containment. -/
def containsSub (needle : List Char) : List Char → Bool
  | [] => needle.isEmpty
  | c :: t => needle.isPrefixOf (c :: t) || containsSub needle t

/-- index.ts lines 137-139. -/
def isVSCodeApp (app : String) : Bool :=
  containsSub "code".data (toLowerStr app).data ||
    containsSub "vscode".data (toLowerStr app).data

/-- index.ts line 140. -/
def isCursorApp (app : String) : Bool :=
  containsSub "cursor".data (toLowerStr app).data

/-- Replies of the two IDE locators and the filesystem during one
`executeAction` request. -/
structure ExecEnv where
  resolveVSCode : Option String
  resolveCursor : Option String
  diskExists : String → Bool

/-- Terminal outcomes of the resolution phase: either a workspace was
resolved (the action `switch` then runs, loop-free), or the fixed
workspace-unavailable message is returned. -/
inductive ExecOutcome where
  | proceed : String → ExecOutcome
  | unavailable : ExecOutcome
deriving DecidableEq

/-- Embedding of the resolution loop of `plugin.executeAction`, with fuel for the self-call. -/
def executeActionGo (env : ExecEnv) : Nat → CacheState → Option (ExecOutcome × CacheState)
  | 0, _ => none
  | fuel + 1, st =>
    match getWorkspace none st env.diskExists with
    | some ws => some (.proceed ws, st)
    | none =>
      let currentApp := getCurrentApp st
      if currentApp = "" then some (.unavailable, st)
      else
        let isV := isVSCodeApp currentApp
        let isC := isCursorApp currentApp
        if isV || isC then
          match (if isC then env.resolveCursor else env.resolveVSCode) with
          | some fresh => executeActionGo env fuel (saveWorkspace currentApp (some fresh) st)
          | none => some (.unavailable, st)
        else some (.unavailable, st)

/-- The resolution loop never returns, at any fuel. -/
def execDiverges (env : ExecEnv) (st : CacheState) : Prop :=
  ∀ fuel, executeActionGo env fuel st = none

/-- Re-caching the same resolution twice is the same as once. -/
theorem saveWorkspace_idem (a : String) (w : Option String) (st : CacheState) :
    saveWorkspace a w (saveWorkspace a w st) = saveWorkspace a w st := by
  unfold saveWorkspace
  simp only [if_pos rfl]
  congr 1
  funext k
  unfold updateEntries
  by_cases h : k = a <;> simp [h]

/-- C9 (amended): the cache-miss fallback in the good cases — a cache hit
proceeds immediately; a miss without a current app, with a non-IDE app, or
with a failed re-resolution returns the fixed unavailable outcome with no
further retry; and a miss whose single re-resolution yields a path that
passes the read-time existence check proceeds after exactly one
re-resolution, with the result independent of any remaining fuel. -/
theorem executeAction_oneShot (env : ExecEnv) (st : CacheState) :
    (∀ w, getWorkspace none st env.diskExists = some w →
      ∀ fuel, executeActionGo env (fuel + 1) st = some (.proceed w, st)) ∧
    (getWorkspace none st env.diskExists = none → getCurrentApp st = "" →
      ∀ fuel, executeActionGo env (fuel + 1) st = some (.unavailable, st)) ∧
    (getWorkspace none st env.diskExists = none → getCurrentApp st ≠ "" →
      (isVSCodeApp (getCurrentApp st) || isCursorApp (getCurrentApp st)) = false →
      ∀ fuel, executeActionGo env (fuel + 1) st = some (.unavailable, st)) ∧
    (getWorkspace none st env.diskExists = none → getCurrentApp st ≠ "" →
      (isVSCodeApp (getCurrentApp st) || isCursorApp (getCurrentApp st)) = true →
      (if isCursorApp (getCurrentApp st) then env.resolveCursor
        else env.resolveVSCode) = none →
      ∀ fuel, executeActionGo env (fuel + 1) st = some (.unavailable, st)) ∧
    (∀ fresh w, getWorkspace none st env.diskExists = none → getCurrentApp st ≠ "" →
      (isVSCodeApp (getCurrentApp st) || isCursorApp (getCurrentApp st)) = true →
      (if isCursorApp (getCurrentApp st) then env.resolveCursor
        else env.resolveVSCode) = some fresh →
      getWorkspace none (saveWorkspace (getCurrentApp st) (some fresh) st)
        env.diskExists = some w →
      ∀ fuel, executeActionGo env (fuel + 2) st =
        some (.proceed w, saveWorkspace (getCurrentApp st) (some fresh) st)) := by
  refine ⟨?_, ?_, ?_, ?_, ?_⟩
  · intro w hw fuel
    simp [executeActionGo, hw]
  · intro hmiss happ fuel
    simp [executeActionGo, hmiss, happ]
  · intro hmiss happ hide fuel
    simp [executeActionGo, hmiss, happ, hide]
  · intro hmiss happ hide hres fuel
    simp [executeActionGo, hmiss, happ, hide, hres]
  · intro fresh w hmiss happ hide hres hw fuel
    have h1 : executeActionGo env (fuel + 2) st =
        executeActionGo env (fuel + 1)
          (saveWorkspace (getCurrentApp st) (some fresh) st) := by
      simp [executeActionGo, hmiss, happ, hide, hres]
    rw [h1]
    simp [executeActionGo, hw]

def stLoop : CacheState :=
  { fileExists := true
    entries := fun k => if k = "_current_app_" then some (some "cursor") else none }

def envLoop : ExecEnv :=
  { resolveVSCode := none, resolveCursor := some "/gone"
    diskExists := fun _ => false }

/-- C9 counterexample: when the cached current app is `cursor` and the
Cursor locator keeps resolving a path that never exists on disk, the
re-cached path fails the read-time existence check on every recursive call,
so `executeAction` re-resolves forever — the recursion returns at no fuel:
re-resolution is not bounded by one and the procedure does not terminate on
this input. -/
theorem executeAction_diverges : execDiverges envLoop stLoop := by
  have key : ∀ f, executeActionGo envLoop f
      (saveWorkspace "cursor" (some "/gone") stLoop) = none := by
    intro f
    induction f with
    | zero => rfl
    | succ g ih =>
      have hstep : executeActionGo envLoop (g + 1)
          (saveWorkspace "cursor" (some "/gone") stLoop) =
          executeActionGo envLoop g
            (saveWorkspace "cursor" (some "/gone")
              (saveWorkspace "cursor" (some "/gone") stLoop)) := rfl
      rw [hstep, saveWorkspace_idem, ih]
  intro fuel
  cases fuel with
  | zero => rfl
  | succ g =>
    have hstep : executeActionGo envLoop (g + 1) stLoop =
        executeActionGo envLoop g (saveWorkspace "cursor" (some "/gone") stLoop) := rfl
    rw [hstep, key]

def envOk : ExecEnv :=
  { resolveVSCode := none, resolveCursor := some "/ok"
    diskExists := fun s => s == "/ok" }

/-- Witness for C9's amended theorem: one successful re-resolution, then
the call proceeds with the re-cached workspace. -/
theorem executeAction_oneShot_witness :
    executeActionGo envOk 2 stLoop =
      some (.proceed "/ok", saveWorkspace (getCurrentApp stLoop) (some "/ok") stLoop) :=
  (executeAction_oneShot envOk stLoop).2.2.2.2 "/ok" "/ok" rfl (by decide) (by decide)
    rfl rfl 0
